import Mathlib

/-!
Verification development for the schema-diff / DDL-synthesis / sandbox-preview
engine of this repository.

The engine exists in two data-model variants:

* the "simple" variant (the three `previewChanges` modules: the pg-mem backend,
  the pg-mem backend with DDL validation, and the dockerized backend), whose
  `ColumnInfo` has no permissions and whose `TableDiff` tracks added/removed
  foreign keys; modelled in namespace `Simple`;
* the "extended" variant (`apps/web/utils/dbUtils.ts`), whose `ColumnInfo`
  carries column grants and whose tables carry row-level-security policies;
  modelled in namespace `Extended`.

JavaScript string-keyed objects are modelled as association lists
`List (String × α)` in insertion order (JS objects preserve insertion order for
string keys); `jsGet` is property lookup, `keysOf` is `Object.keys`.
`JSON.stringify`-based equality of column / foreign-key records coincides with
structural equality because every record is built with the same field order.
Functions that can throw a `TypeError` (property access on `undefined`) return
`Option`, with `none` for the crash.
-/

/-- Property lookup `l[k]` on a JS object modelled as an insertion-ordered
association list: the value at the first matching key, or `none` (undefined). -/
def jsGet {α : Type _} (l : List (String × α)) (k : String) : Option α :=
  (l.find? (fun p => p.1 == k)).map (fun p => p.2)

/-- The key list `Object.keys l`, in insertion order. -/
def keysOf {α : Type _} (l : List (String × α)) : List String :=
  l.map (fun p => p.1)

/-- The membership test `k in l` on a JS object. -/
def hasKey {α : Type _} (l : List (String × α)) (k : String) : Bool :=
  l.any (fun p => p.1 == k)

/-- Property assignment `l[k] = v`: replaces the value at an existing key in
place, otherwise appends the new key (JS objects keep insertion order). -/
def jsSet {α : Type _} (l : List (String × α)) (k : String) (v : α) : List (String × α) :=
  if hasKey l k then l.map (fun p => if p.1 == k then (p.1, v) else p) else l ++ [(k, v)]

/-- Property deletion `delete l[k]`. -/
def jsDelete {α : Type _} (l : List (String × α)) (k : String) : List (String × α) :=
  l.filter (fun p => !(p.1 == k))

/-- Decides whether `pat` occurs at the start of `s` (character lists). -/
def charsStartWith : List Char → List Char → Bool
  | _, [] => true
  | [], _ :: _ => false
  | c :: cs, d :: ds => c == d && charsStartWith cs ds

/-- Decides whether `pat` occurs anywhere inside `s` (character lists). -/
def charsContain : List Char → List Char → Bool
  | [], pat => pat.isEmpty
  | c :: cs, pat => charsStartWith (c :: cs) pat || charsContain cs pat

/-- The JS substring test `s.includes(sub)`. -/
def jsIncludes (s sub : String) : Bool :=
  charsContain s.data sub.data

/-- The JS `s.toLowerCase()` (ASCII case folding, which covers all SQL keywords
the validator scans for). -/
def toLowerStr (s : String) : String :=
  ⟨s.data.map Char.toLower⟩

/-- Concatenation of a list of strings, in order; the result of a JS loop that
appends each element to an accumulator. -/
def strConcat : List String → String
  | [] => ""
  | s :: rest => s ++ strConcat rest

/-- Splitting a character list at every occurrence of a separator character
(the semantics of the JS `split` with a one-character separator: empty pieces
are kept, and the empty input yields one empty piece). -/
def splitChars (sep : Char) : List Char → List (List Char)
  | [] => [[]]
  | c :: cs =>
    let r := splitChars sep cs
    if c == sep then [] :: r
    else
      match r with
      | [] => [[c]]
      | h :: t => (c :: h) :: t

/-- The JS `s.split(sep)` for a one-character separator. -/
def jsSplit (s : String) (sep : Char) : List String :=
  (splitChars sep s.data).map (fun l => String.mk l)

/-- The JS `s.trim()`: strip leading and trailing whitespace. -/
def jsTrim (s : String) : String :=
  String.mk (((s.data.dropWhile Char.isWhitespace).reverse.dropWhile Char.isWhitespace).reverse)

/-- The length suffix `(${maxLength})` appended after a type name when
`maxLength` is truthy (in JS, `null` and `0` are falsy). -/
def maxLenSuffix : Option Nat → String
  | some n => if n == 0 then "" else "(" ++ toString n ++ ")"
  | none => ""

/-- JS truthiness of a nullable string (`null` and the empty string are falsy). -/
def strTruthy : Option String → Bool
  | some v => v != ""
  | none => false

namespace Simple

/-- Column description of the simple variant (`ColumnInfo`). -/
structure ColumnInfo where
  type : String
  maxLength : Option Nat
  isNullable : Bool
  defaultValue : Option String
  isPrimaryKey : Bool
deriving DecidableEq, Repr

/-- Foreign-key description (`ForeignKeyInfo`). -/
structure ForeignKeyInfo where
  columnName : String
  referenceTable : String
  referenceColumn : String
  updateRule : String
  deleteRule : String
deriving DecidableEq, Repr

/-- Table description (`TableInfo`): columns as an insertion-ordered object,
plus the foreign-key list. -/
structure TableInfo where
  columns : List (String × ColumnInfo)
  foreignKeys : List ForeignKeyInfo
deriving DecidableEq, Repr

/-- A whole schema (`DatabaseSchema`): table name → table, insertion ordered. -/
abbrev DatabaseSchema := List (String × TableInfo)

/-- A changed column before/after pair; fields `from_`/`to_` model `from`/`to`. -/
structure ColumnDiff where
  from_ : ColumnInfo
  to_ : ColumnInfo
deriving DecidableEq, Repr

/-- Per-table diff (`SchemaDiff.tablesDiff` entry). -/
structure TableDiff where
  columnsAdded : List String
  columnsRemoved : List String
  columnsDiff : List (String × ColumnDiff)
  foreignKeysAdded : List ForeignKeyInfo
  foreignKeysRemoved : List ForeignKeyInfo
deriving DecidableEq, Repr

/-- Diff between two schemas (`SchemaDiff`). -/
structure SchemaDiff where
  tablesAdded : List String
  tablesRemoved : List String
  tablesDiff : List (String × TableDiff)
deriving DecidableEq, Repr

/-- Per-table comparison loop body of `compareSchemas`: column set difference,
`JSON.stringify` (structural) inequality for changed columns, and foreign keys
compared as sets under structural equality. -/
def compareTables (t1 t2 : TableInfo) : TableDiff :=
  { columnsAdded := (keysOf t2.columns).filter (fun c => !(hasKey t1.columns c))
    columnsRemoved := (keysOf t1.columns).filter (fun c => !(hasKey t2.columns c))
    columnsDiff := (keysOf t1.columns).filterMap (fun c =>
      match jsGet t2.columns c, jsGet t1.columns c with
      | some c2, some c1 => if c1 == c2 then none else some (c, { from_ := c1, to_ := c2 })
      | _, _ => none)
    foreignKeysAdded := t2.foreignKeys.filter (fun fk => !(t1.foreignKeys.any (fun f => f == fk)))
    foreignKeysRemoved := t1.foreignKeys.filter (fun fk => !(t2.foreignKeys.any (fun f => f == fk))) }

/-- Tests whether a per-table diff has any content (the guard deciding whether
the table is emitted into `tablesDiff`). -/
def tableDiffNonEmpty (td : TableDiff) : Bool :=
  !td.columnsAdded.isEmpty || !td.columnsRemoved.isEmpty || !td.columnsDiff.isEmpty ||
    !td.foreignKeysAdded.isEmpty || !td.foreignKeysRemoved.isEmpty

/-- The schema comparator `compareSchemas(schema1, schema2)` of the simple
variant: table-set difference for added/removed tables, then the per-table
comparison for every table of `schema1` that is also in `schema2`, emitted only
when non-empty. -/
def compareSchemas (schema1 schema2 : DatabaseSchema) : SchemaDiff :=
  { tablesAdded := (keysOf schema2).filter (fun table => !(hasKey schema1 table))
    tablesRemoved := (keysOf schema1).filter (fun table => !(hasKey schema2 table))
    tablesDiff := (keysOf schema1).filterMap (fun table =>
      match jsGet schema2 table, jsGet schema1 table with
      | some t2, some t1 =>
        let td := compareTables t1 t2
        if tableDiffNonEmpty td then some (table, td) else none
      | _, _ => none) }

/-- Error message pushed by `verifyPsql` when the script mentions
`DROP DATABASE` or `DROP SCHEMA`. -/
def dropDenyMsg : String :=
  "DROP DATABASE or DROP SCHEMA statements are not allowed for safety reasons."

/-- Error message pushed by `verifyPsql` when the script mentions `TRUNCATE`. -/
def truncateDenyMsg : String :=
  "TRUNCATE statements are not recommended for this preview."

/-- Result record of `verifyPsql` (`{ isValid, errors }`). -/
structure VerifyResult where
  isValid : Bool
  errors : List String
deriving DecidableEq, Repr

/-- The `DROP TABLE IF EXISTS "t" CASCADE;` statement for a removed table. -/
def dropTableStmt (table : String) : String :=
  "DROP TABLE IF EXISTS \"" ++ table ++ "\" CASCADE;\n"

/-- The empty-shell `CREATE TABLE "t" ();` statement for an added table. -/
def createTableStmt (table : String) : String :=
  "CREATE TABLE \"" ++ table ++ "\" ();\n"

/-- The `ALTER TABLE ... ADD COLUMN ...` statement for an added column. -/
def addColumnStmt (table column : String) (ci : ColumnInfo) : String :=
  "ALTER TABLE \"" ++ table ++ "\" ADD COLUMN \"" ++ column ++ "\" " ++ ci.type
    ++ maxLenSuffix ci.maxLength
    ++ (if ci.isNullable then "" else " NOT NULL")
    ++ (match ci.defaultValue with
        | some v => if v == "" then "" else " DEFAULT " ++ v
        | none => "")
    ++ ";\n"

/-- The statements emitted for one changed column, in source order: the TYPE
change (when type or maxLength differ; note there is no `USING` cast in this
variant), the `SET`/`DROP NOT NULL` toggle, and the default change. -/
def modifyColumnStmts (table column : String) (cd : ColumnDiff) : String :=
  (if cd.from_.type != cd.to_.type || cd.from_.maxLength != cd.to_.maxLength then
    "ALTER TABLE \"" ++ table ++ "\" ALTER COLUMN \"" ++ column ++ "\" TYPE " ++ cd.to_.type
      ++ maxLenSuffix cd.to_.maxLength ++ ";\n"
  else "")
  ++ (if cd.from_.isNullable != cd.to_.isNullable then
    "ALTER TABLE \"" ++ table ++ "\" ALTER COLUMN \"" ++ column ++ "\" "
      ++ (if cd.to_.isNullable then "DROP" else "SET") ++ " NOT NULL;\n"
  else "")
  ++ (if cd.from_.defaultValue != cd.to_.defaultValue then
    (if strTruthy cd.to_.defaultValue then
      "ALTER TABLE \"" ++ table ++ "\" ALTER COLUMN \"" ++ column ++ "\" SET DEFAULT "
        ++ cd.to_.defaultValue.getD "" ++ ";\n"
    else
      "ALTER TABLE \"" ++ table ++ "\" ALTER COLUMN \"" ++ column ++ "\" DROP DEFAULT;\n")
  else "")

/-- The `ALTER TABLE ... DROP COLUMN ...;` statement for a removed column. -/
def dropColumnStmt (table column : String) : String :=
  "ALTER TABLE \"" ++ table ++ "\" DROP COLUMN \"" ++ column ++ "\";\n"

/-- The `ADD CONSTRAINT "t_col_fkey" FOREIGN KEY ...` statement for an added
foreign key. -/
def addFkStmt (table : String) (fk : ForeignKeyInfo) : String :=
  "ALTER TABLE \"" ++ table ++ "\" ADD CONSTRAINT \"" ++ table ++ "_" ++ fk.columnName
    ++ "_fkey\" FOREIGN KEY (\"" ++ fk.columnName ++ "\") REFERENCES \"" ++ fk.referenceTable
    ++ "\" (\"" ++ fk.referenceColumn ++ "\") ON UPDATE " ++ fk.updateRule
    ++ " ON DELETE " ++ fk.deleteRule ++ ";\n"

/-- The `DROP CONSTRAINT "t_col_fkey";` statement for a removed foreign key. -/
def dropFkStmt (table : String) (fk : ForeignKeyInfo) : String :=
  "ALTER TABLE \"" ++ table ++ "\" DROP CONSTRAINT \"" ++ table ++ "_" ++ fk.columnName
    ++ "_fkey\";\n"

/-- The `columnsAdded` loop of `generatePsql`: for each added column it reads
`tableDiff.columnsDiff[column].to` — but `compareSchemas` never records added
columns in `columnsDiff`, so that lookup yields `undefined` and the `.to`
access throws a `TypeError`, modelled as `none`. -/
def addColumnsLoop (psql table : String) (td : TableDiff) : List String → Option String
  | [] => some psql
  | column :: rest =>
    match jsGet td.columnsDiff column with
    | none => none
    | some cd => addColumnsLoop (psql ++ addColumnStmt table column cd.to_) table td rest

/-- The per-table loop of `generatePsql` over `Object.entries(diff.tablesDiff)`,
accumulating into `psql` in source order: added columns, changed columns,
removed columns, added foreign keys, removed foreign keys. -/
def alterTablesLoop (psql : String) : List (String × TableDiff) → Option String
  | [] => some psql
  | (table, td) :: rest =>
    match addColumnsLoop psql table td td.columnsAdded with
    | none => none
    | some p1 =>
      let p2 := td.columnsDiff.foldl (fun acc q => acc ++ modifyColumnStmts table q.1 q.2) p1
      let p3 := td.columnsRemoved.foldl (fun acc c => acc ++ dropColumnStmt table c) p2
      let p4 := td.foreignKeysAdded.foldl (fun acc fk => acc ++ addFkStmt table fk) p3
      let p5 := td.foreignKeysRemoved.foldl (fun acc fk => acc ++ dropFkStmt table fk) p4
      alterTablesLoop p5 rest

/-- The DDL synthesizer `generatePsql(diff)` of the simple variant: a string
accumulator receives drop statements for removed tables, empty-shell creates
for added tables, then the per-table alteration loop. `none` models the
`TypeError` thrown in the added-column branch (see `addColumnsLoop`). -/
def generatePsql (diff : SchemaDiff) : Option String :=
  let psql := ""
  let psql := diff.tablesRemoved.foldl (fun acc table => acc ++ dropTableStmt table) psql
  let psql := diff.tablesAdded.foldl (fun acc table => acc ++ createTableStmt table) psql
  alterTablesLoop psql diff.tablesDiff

/-- Specification view: the block of `DROP TABLE` statements, in order. -/
def dropSection (d : SchemaDiff) : String :=
  strConcat (d.tablesRemoved.map dropTableStmt)

/-- Specification view: the block of `CREATE TABLE` statements, in order. -/
def createSection (d : SchemaDiff) : String :=
  strConcat (d.tablesAdded.map createTableStmt)

/-- Specification view: the added-column block of one changed table. -/
def addColumnsSection (table : String) (td : TableDiff) : List String → Option String
  | [] => some ""
  | column :: rest =>
    match jsGet td.columnsDiff column, addColumnsSection table td rest with
    | some cd, some s => some (addColumnStmt table column cd.to_ ++ s)
    | _, _ => none

/-- Specification view: the changed-column block of one changed table. -/
def modifySection (table : String) (td : TableDiff) : String :=
  strConcat (td.columnsDiff.map (fun q => modifyColumnStmts table q.1 q.2))

/-- Specification view: the removed-column block of one changed table. -/
def dropColumnsSection (table : String) (td : TableDiff) : String :=
  strConcat (td.columnsRemoved.map (dropColumnStmt table))

/-- Specification view: the added-foreign-key block of one changed table. -/
def addFkSection (table : String) (td : TableDiff) : String :=
  strConcat (td.foreignKeysAdded.map (addFkStmt table))

/-- Specification view: the removed-foreign-key block of one changed table. -/
def dropFkSection (table : String) (td : TableDiff) : String :=
  strConcat (td.foreignKeysRemoved.map (dropFkStmt table))

/-- Specification view: the statements of one changed table, in the claimed
order — add columns, change columns, drop columns, add FKs, drop FKs. -/
def tableAlterSection (table : String) (td : TableDiff) : Option String :=
  match addColumnsSection table td td.columnsAdded with
  | none => none
  | some a => some (a ++ modifySection table td ++ dropColumnsSection table td
      ++ addFkSection table td ++ dropFkSection table td)

/-- Specification view: the concatenated per-table sections, in table order. -/
def alterSections : List (String × TableDiff) → Option String
  | [] => some ""
  | (table, td) :: rest =>
    match tableAlterSection table td, alterSections rest with
    | some a, some b => some (a ++ b)
    | _, _ => none

/-- The SQL validator `verifyPsql(psql)`. The external `pgsql-ast-parser` is
abstracted as the oracle `parse`, returning `some msg` when parsing a statement
throws with message `msg` and `none` when it parses. The script is split on
`;`, blank statements are dropped, each remaining statement is parsed, and the
whole lowercased script is scanned for the denied keywords; `isValid` is true
iff `errors` stayed empty. -/
def verifyPsql (parse : String → Option String) (psql : String) : VerifyResult :=
  let statements := (jsSplit psql ';').filter (fun stmt => jsTrim stmt != "")
  let parseErrors := statements.filterMap (fun stmt =>
    (parse stmt).map (fun msg => "Error in statement: " ++ jsTrim stmt ++ "\nError details: " ++ msg))
  let errors := parseErrors ++
    (if jsIncludes (toLowerStr psql) "drop database" || jsIncludes (toLowerStr psql) "drop schema" then
      [dropDenyMsg] else []) ++
    (if jsIncludes (toLowerStr psql) "truncate" then [truncateDenyMsg] else [])
  { isValid := errors.length == 0, errors := errors }

/-- Sandbox registry entry (`PreviewDatabase`): the engine instance type is the
type parameter `D` (a pg-mem handle is a black-box external object). -/
structure PreviewDatabase (D : Type) where
  id : String
  db : D
  lastAccessed : Nat
deriving DecidableEq

/-- The process-wide registry `activeDatabases`, a user-keyed JS object. -/
abbrev Registry (D : Type) := List (String × PreviewDatabase D)

/-- The lease step at the top of `previewChanges`: reuse the user's sandbox and
refresh `lastAccessed`, or run `createPreviewDatabase` (fresh engine, id
`preview-<user>-<uuid>`, timestamp `now`). The clock and the uuid are injected
(`Date.now()` / `uuidv4()` are ambient in the source). -/
def leaseSandbox {D : Type} (reg : Registry D) (userId : String) (now : Nat)
    (uuid : String) (freshDb : D) : D × Registry D :=
  match jsGet reg userId with
  | some pd => (pd.db, jsSet reg userId { pd with lastAccessed := now })
  | none =>
    (freshDb, jsSet reg userId
      { id := "preview-" ++ userId ++ "-" ++ uuid, db := freshDb, lastAccessed := now })

/-- Result value of the validated `previewChanges` (the returned object always
carries the final diff and the verification result). -/
structure PreviewResult where
  diff : SchemaDiff
  verificationResult : VerifyResult
deriving DecidableEq

/-- The empty schema diff. -/
def emptyDiff : SchemaDiff :=
  { tablesAdded := [], tablesRemoved := [], tablesDiff := [] }

/-- The validated `previewChanges(userId, source, target, psql)` orchestrator,
with explicit registry state and oracles for the external effects: `parse` for
the SQL parser, and `sourceRes` / `targetRes` / `previewRes` for the three
`getSchema` calls (source connection, target connection, sandbox), each of
which may throw. `applyPsqlToPreviewDB` wraps every statement in try/catch, so
it never throws and only mutates the external engine; the sandbox state it
produces is what the `previewRes` oracle introspects. On a validation failure
the function returns early — without touching the registry; on any thrown
error it deletes the user's registry entry and rethrows. -/
def previewChanges {D : Type} (reg : Registry D) (userId : String) (now : Nat)
    (uuid : String) (freshDb : D) (parse : String → Option String) (psql : String)
    (sourceRes targetRes previewRes : Except String DatabaseSchema) :
    Registry D × Except String PreviewResult :=
  let lease := leaseSandbox reg userId now uuid freshDb
  let reg1 := lease.2
  let vr := verifyPsql parse psql
  if vr.isValid then
    match sourceRes with
    | Except.error e => (jsDelete reg1 userId, Except.error e)
    | Except.ok _ =>
      match targetRes with
      | Except.error e => (jsDelete reg1 userId, Except.error e)
      | Except.ok targetSchema =>
        match previewRes with
        | Except.error e => (jsDelete reg1 userId, Except.error e)
        | Except.ok previewSchema =>
          (reg1, Except.ok { diff := compareSchemas previewSchema targetSchema
                             verificationResult := vr })
  else
    (reg1, Except.ok { diff := emptyDiff, verificationResult := vr })

end Simple

/-- Lexical (code-point) comparison of character lists, the order the spec
means by "sorted (lexical) order". -/
def charsLexLe : List Char → List Char → Bool
  | [], _ => true
  | _ :: _, [] => false
  | c :: cs, d :: ds => if c == d then charsLexLe cs ds else decide (c < d)

/-- Lexical order on strings. -/
def strLexLe (a b : String) : Bool :=
  charsLexLe a.data b.data

/-- Decides whether a list of strings is in (non-strict) lexical order. -/
def sortedStrings : List String → Bool
  | [] => true
  | [_] => true
  | a :: b :: rest => strLexLe a b && sortedStrings (b :: rest)

/-- Example column: a not-null integer primary key. -/
def intPkCol : Simple.ColumnInfo :=
  { type := "integer", maxLength := none, isNullable := false
    defaultValue := none, isPrimaryKey := true }

/-- Example column: a nullable text column. -/
def textCol : Simple.ColumnInfo :=
  { type := "text", maxLength := none, isNullable := true
    defaultValue := none, isPrimaryKey := false }

/-- Example source schema: one `users` table with just an `id` column. -/
def usersSrc : Simple.DatabaseSchema :=
  [("users", { columns := [("id", intPkCol)], foreignKeys := [] })]

/-- Example target schema: the same `users` table plus an added `email` column
— the simplest add-one-column migration. -/
def usersTgt : Simple.DatabaseSchema :=
  [("users", { columns := [("id", intPkCol), ("email", textCol)], foreignKeys := [] })]

/-- The sandbox contents after seeding with `usersSrc`: the seed script is
`CREATE TABLE "users" ();`, so introspection sees a `users` table with no
columns at all. -/
def usersShell : Simple.DatabaseSchema :=
  [("users", { columns := [], foreignKeys := [] })]

/-- Second example pair for the synthesizer-totality claim: a `posts` table
gaining a `title` column. -/
def postsSrc : Simple.DatabaseSchema :=
  [("posts", { columns := [("id", intPkCol)], foreignKeys := [] })]

/-- Target of the second example pair. -/
def postsTgt : Simple.DatabaseSchema :=
  [("posts", { columns := [("id", intPkCol), ("title", textCol)], foreignKeys := [] })]

/-- An empty table value used by the ordering counterexamples. -/
def emptyTable : Simple.TableInfo :=
  { columns := [], foreignKeys := [] }

/-- Two-table schema inserted in the order `b`, `a` (JS objects iterate string
keys in insertion order, so `Object.keys` yields `["b", "a"]`). -/
def twoTablesBA : Simple.DatabaseSchema :=
  [("b", emptyTable), ("a", emptyTable)]

/-- The same two-table schema inserted in the order `a`, `b`. -/
def twoTablesAB : Simple.DatabaseSchema :=
  [("a", emptyTable), ("b", emptyTable)]

namespace Extended

/-- Column description of the extended variant: adds the `permissions` list of
column-grant strings. -/
structure ColumnInfo where
  type : String
  maxLength : Option Nat
  isNullable : Bool
  defaultValue : Option String
  isPrimaryKey : Bool
  permissions : List String
deriving DecidableEq, Repr

/-- Foreign-key description of the extended variant. -/
structure ForeignKeyInfo where
  columnName : String
  referenceTable : String
  referenceColumn : String
  updateRule : String
  deleteRule : String
deriving DecidableEq, Repr

/-- Table description of the extended variant: adds the `rlsPolicies` list of
row-level-security policy strings. -/
structure TableInfo where
  columns : List (String × ColumnInfo)
  foreignKeys : List ForeignKeyInfo
  rlsPolicies : List String
deriving DecidableEq, Repr

/-- A whole schema of the extended variant. -/
abbrev DatabaseSchema := List (String × TableInfo)

/-- A changed column before/after pair; fields `from_`/`to_` model `from`/`to`. -/
structure ColumnDiff where
  from_ : ColumnInfo
  to_ : ColumnInfo
deriving DecidableEq, Repr

/-- Per-table diff of the extended variant: the optional `foreignKeys` /
`rlsPolicies` fields hold the whole target list when the lists differ
(coarse whole-list replacement), and are absent (`none`) otherwise. -/
structure TableDiff where
  columnsAdded : List String
  columnsRemoved : List String
  columnsDiff : List (String × ColumnDiff)
  foreignKeys : Option (List ForeignKeyInfo)
  rlsPolicies : Option (List String)
deriving DecidableEq, Repr

/-- Diff between two schemas, extended variant. -/
structure SchemaDiff where
  tablesAdded : List String
  tablesRemoved : List String
  tablesDiff : List (String × TableDiff)
deriving DecidableEq, Repr

/-- Per-table comparison of `compareSchemas` in `dbUtils.ts`: added and changed
columns are collected while iterating the target table's columns, removed
columns while iterating the source table's; foreign keys and RLS policies are
compared as whole lists via `JSON.stringify` (structural list equality). -/
def compareTables (t1 t2 : TableInfo) : TableDiff :=
  { columnsAdded := (keysOf t2.columns).filter (fun c => (jsGet t1.columns c).isNone)
    columnsRemoved := (keysOf t1.columns).filter (fun c => (jsGet t2.columns c).isNone)
    columnsDiff := (keysOf t2.columns).filterMap (fun c =>
      match jsGet t1.columns c, jsGet t2.columns c with
      | some c1, some c2 => if c1 == c2 then none else some (c, { from_ := c1, to_ := c2 })
      | _, _ => none)
    foreignKeys := if t1.foreignKeys == t2.foreignKeys then none else some t2.foreignKeys
    rlsPolicies := if t1.rlsPolicies == t2.rlsPolicies then none else some t2.rlsPolicies }

/-- Guard deciding whether a per-table diff is emitted (`dbUtils.ts` checks the
three column lists plus the truthiness of the two optional fields). -/
def tableDiffNonEmpty (td : TableDiff) : Bool :=
  !td.columnsDiff.isEmpty || !td.columnsAdded.isEmpty || !td.columnsRemoved.isEmpty ||
    td.foreignKeys.isSome || td.rlsPolicies.isSome

/-- The schema comparator `compareSchemas` of `dbUtils.ts` (the `async` wrapper
is pure apart from its promise). Truthiness tests `!schema1[table]` are
modelled as `Option.isNone` of the lookup. -/
def compareSchemas (schema1 schema2 : DatabaseSchema) : SchemaDiff :=
  { tablesAdded := (keysOf schema2).filter (fun table => (jsGet schema1 table).isNone)
    tablesRemoved := (keysOf schema1).filter (fun table => (jsGet schema2 table).isNone)
    tablesDiff := (keysOf schema1).filterMap (fun table =>
      match jsGet schema2 table, jsGet schema1 table with
      | some t2, some t1 =>
        let td := compareTables t1 t2
        if tableDiffNonEmpty td then some (table, td) else none
      | _, _ => none) }

/-- The `getColumnDefinition` helper: type name plus truthy length suffix. -/
def getColumnDefinition (column : ColumnInfo) : String :=
  column.type ++ maxLenSuffix column.maxLength

/-- The `getColumnDefinitionSQL` helper: `<name> <type>[(<len>)] [NOT NULL]
[DEFAULT <expr>]`. -/
def getColumnDefinitionSQL (colName : String) (colInfo : ColumnInfo) : String :=
  colName ++ " " ++ getColumnDefinition colInfo
    ++ (if colInfo.isNullable then "" else " NOT NULL")
    ++ (if strTruthy colInfo.defaultValue then " DEFAULT " ++ colInfo.defaultValue.getD "" else "")

/-- Text emitted for one RLS policy inside `handleRLSPolicies`: the recorded
policy string is split on single spaces, destructured positionally (missing
positions become the string rendering of `undefined`), and re-issued as a
`DROP POLICY IF EXISTS` / `CREATE POLICY` pair. -/
def policyText (table policy : String) : String :=
  let parts := jsSplit policy ' '
  let policyName := parts.getD 2 "undefined"
  let policyType := parts.getD 3 "undefined"
  let policyAction := parts.getD 5 "undefined"
  let rest := parts.drop 6
  let usingIdx := rest.findIdx? (fun w => w == "USING")
  let checkIdx := rest.findIdx? (fun w => w == "WITH")
  let policyUsing :=
    match usingIdx with
    | some i =>
      String.intercalate " " (match checkIdx with
        | some j => (rest.drop (i + 1)).take (j - (i + 1))
        | none => rest.drop (i + 1))
    | none => ""
  let policyCheck :=
    match checkIdx with
    | some j => String.intercalate " " (rest.drop (j + 2))
    | none => ""
  "DROP POLICY IF EXISTS " ++ policyName ++ " ON " ++ table ++ ";\n"
    ++ "CREATE POLICY " ++ policyName ++ " ON " ++ table ++ " FOR " ++ policyAction
    ++ " TO " ++ policyType ++ " "
    ++ (if policyUsing != "" then "USING (" ++ policyUsing ++ ") " else "")
    ++ (if policyCheck != "" then "WITH CHECK (" ++ policyCheck ++ ")" else "")
    ++ ";\n"

/-- The `handleRLSPolicies` helper: always re-enables row-level security, then
re-issues every recorded policy. -/
def handleRLSPolicies (table : String) (policies : List String) : String :=
  "ALTER TABLE " ++ table ++ " ENABLE ROW LEVEL SECURITY;\n"
    ++ strConcat (policies.map (policyText table))

/-- Insertion into a JS `Set` of strings (dedupe, insertion order kept). -/
def addToSet (s : List String) (x : String) : List String :=
  if s.contains x then s else s ++ [x]

/-- Adds a column to the per-privilege column set inside `handlePermissions`. -/
def upsertPriv (privs : List (String × List String)) (priv col : String) :
    List (String × List String) :=
  if hasKey privs priv then
    privs.map (fun p => if p.1 == priv then (p.1, addToSet p.2 col) else p)
  else privs ++ [(priv, [col])]

/-- Adds a column to the nested grantee → privilege → column-set map. -/
def upsertGrantee (acc : List (String × List (String × List String)))
    (grantee priv col : String) : List (String × List (String × List String)) :=
  if hasKey acc grantee then
    acc.map (fun p => if p.1 == grantee then (p.1, upsertPriv p.2 priv col) else p)
  else acc ++ [(grantee, upsertPriv [] priv col)]

/-- The aggregation loop of `handlePermissions`: every recorded grant string is
split on spaces and destructured as `[privilege, _, __, grantee]`. -/
def permissionsMap (columns : List (String × ColumnInfo)) :
    List (String × List (String × List String)) :=
  columns.foldl (fun acc q =>
    q.2.permissions.foldl (fun acc2 permission =>
      let parts := jsSplit permission ' '
      let privilege := parts.getD 0 "undefined"
      let grantee := parts.getD 3 "undefined"
      upsertGrantee acc2 grantee privilege q.1) acc) []

/-- The `handlePermissions` helper: one merged statement per grantee. -/
def handlePermissions (table : String) (columns : List (String × ColumnInfo)) : String :=
  strConcat ((permissionsMap columns).map (fun g =>
    let grantStatements := g.2.map (fun pr =>
      pr.1 ++ " (" ++ String.intercalate ", " pr.2 ++ ")")
    if grantStatements.isEmpty then ""
    else String.intercalate ", " grantStatements ++ " ON " ++ table ++ " TO " ++ g.1 ++ ";\n"))

/-- The create-table branch of `generatePsql`: full column definitions, then
the synthesized primary-key constraint, then the foreign-key constraints. -/
def createTableText (table : String) (tableSchema : TableInfo) : String :=
  let columns := String.intercalate ", "
    (tableSchema.columns.map (fun q => getColumnDefinitionSQL q.1 q.2))
  let primaryKeys := (tableSchema.columns.filter (fun q => q.2.isPrimaryKey)).map (fun q => q.1)
  "CREATE TABLE " ++ table ++ " (" ++ columns ++ ");\n"
    ++ (if primaryKeys.isEmpty then "" else
      "ALTER TABLE " ++ table ++ " ADD CONSTRAINT " ++ table ++ "_pkey PRIMARY KEY ("
        ++ String.intercalate ", " primaryKeys ++ ");\n")
    ++ strConcat (tableSchema.foreignKeys.map (fun fk =>
      "ALTER TABLE " ++ table ++ " ADD CONSTRAINT " ++ table ++ "_" ++ fk.columnName
        ++ "_fkey FOREIGN KEY (" ++ fk.columnName ++ ") REFERENCES " ++ fk.referenceTable
        ++ "(" ++ fk.referenceColumn ++ ") ON UPDATE " ++ fk.updateRule
        ++ " ON DELETE " ++ fk.deleteRule ++ ";\n"))

/-- The added-column loop of the alter branch: column definitions are read from
the full target schema; a column missing there makes `getColumnDefinition`
dereference `undefined` (modelled as `none`). -/
def addColumnsText (tableSchema : TableInfo) (table : String) : List String → Option String
  | [] => some ""
  | col :: rest =>
    match jsGet tableSchema.columns col, addColumnsText tableSchema table rest with
    | some colInfo, some s =>
      some ("ALTER TABLE " ++ table ++ " ADD COLUMN " ++ getColumnDefinitionSQL col colInfo
        ++ ";\n" ++ s)
    | _, _ => none

/-- The removed-column loop of the alter branch. -/
def dropColumnsText (table : String) (td : TableDiff) : String :=
  strConcat (td.columnsRemoved.map (fun col =>
    "ALTER TABLE " ++ table ++ " DROP COLUMN IF EXISTS " ++ col ++ " CASCADE;\n"))

/-- The TYPE-change statement with its explicit `USING` cast, exactly as
`dbUtils.ts` emits it for a changed column whose type or length differ. -/
def typeChangeStmt (table col : String) (ci : ColumnInfo) : String :=
  "ALTER TABLE " ++ table ++ " ALTER COLUMN " ++ col ++ " TYPE " ++ getColumnDefinition ci
    ++ " USING " ++ col ++ "::" ++ getColumnDefinition ci ++ ";\n"

/-- The statements emitted for one changed column, in source order: TYPE change
with `USING` cast, nullability toggle, default change. -/
def modifyColumnText (table col : String) (cd : ColumnDiff) : String :=
  (if cd.from_.type != cd.to_.type || cd.from_.maxLength != cd.to_.maxLength then
    typeChangeStmt table col cd.to_
  else "")
  ++ (if cd.from_.isNullable != cd.to_.isNullable then
    "ALTER TABLE " ++ table ++ " ALTER COLUMN " ++ col ++ " "
      ++ (if cd.to_.isNullable then "DROP" else "SET") ++ " NOT NULL;\n"
  else "")
  ++ (if cd.from_.defaultValue != cd.to_.defaultValue then
    (if strTruthy cd.to_.defaultValue then
      "ALTER TABLE " ++ table ++ " ALTER COLUMN " ++ col ++ " SET DEFAULT "
        ++ cd.to_.defaultValue.getD "" ++ ";\n"
    else
      "ALTER TABLE " ++ table ++ " ALTER COLUMN " ++ col ++ " DROP DEFAULT;\n")
  else "")

/-- The changed-column loop of the alter branch. -/
def modifyColumnsText (table : String) (td : TableDiff) : String :=
  strConcat (td.columnsDiff.map (fun q => modifyColumnText table q.1 q.2))

/-- The foreign-key reconciliation of the alter branch: when the diff carries a
(truthy) `foreignKeys` field, every FK of the target table is dropped (if it
exists) and re-added under its synthetic name. -/
def fkUpdateText (table : String) (tableSchema : TableInfo) (td : TableDiff) : String :=
  match td.foreignKeys with
  | none => ""
  | some _ => strConcat (tableSchema.foreignKeys.map (fun fk =>
    "ALTER TABLE " ++ table ++ " DROP CONSTRAINT IF EXISTS " ++ table ++ "_" ++ fk.columnName
      ++ "_fkey;\n"
      ++ "ALTER TABLE " ++ table ++ " ADD CONSTRAINT " ++ table ++ "_" ++ fk.columnName
      ++ "_fkey FOREIGN KEY (" ++ fk.columnName ++ ") REFERENCES " ++ fk.referenceTable
      ++ "(" ++ fk.referenceColumn ++ ") ON UPDATE " ++ fk.updateRule
      ++ " ON DELETE " ++ fk.deleteRule ++ ";\n"))

/-- Text contributed by one table of the `[...tablesAdded, ...keys(tablesDiff)]`
loop: the create branch or the alter branch (added columns, removed columns,
changed columns, foreign keys), always followed by the RLS and permission
reconciliation. A table absent from the full target schema crashes the loop
(`tableSchema` is `undefined`), modelled as `none`. -/
def tableText (diff : SchemaDiff) (fullSchema : DatabaseSchema) (table : String) :
    Option String :=
  match jsGet fullSchema table with
  | none => none
  | some tableSchema =>
    let core :=
      if diff.tablesAdded.contains table then some (createTableText table tableSchema)
      else
        match jsGet diff.tablesDiff table with
        | none => none
        | some td =>
          match addColumnsText tableSchema table td.columnsAdded with
          | none => none
          | some addPart =>
            some (addPart ++ dropColumnsText table td ++ modifyColumnsText table td
              ++ fkUpdateText table tableSchema td)
    match core with
    | none => none
    | some c => some (c ++ handleRLSPolicies table tableSchema.rlsPolicies
        ++ handlePermissions table tableSchema.columns)

/-- The main loop of the extended `generatePsql` over added-then-changed
tables, concatenating each table's text. -/
def tablesText (diff : SchemaDiff) (fullSchema : DatabaseSchema) : List String → Option String
  | [] => some ""
  | t :: ts =>
    match tableText diff fullSchema t, tablesText diff fullSchema ts with
    | some a, some b => some (a ++ b)
    | _, _ => none

/-- The extended DDL synthesizer `generatePsql(diff, fullSchema)` of
`dbUtils.ts`: drops for removed tables first, then the combined
added-and-changed table loop. -/
def generatePsql (diff : SchemaDiff) (fullSchema : DatabaseSchema) : Option String :=
  let dropPart := strConcat (diff.tablesRemoved.map (fun table =>
    "DROP TABLE IF EXISTS " ++ table ++ " CASCADE;\n"))
  match tablesText diff fullSchema (diff.tablesAdded ++ keysOf diff.tablesDiff) with
  | some rest => some (dropPart ++ rest)
  | none => none

end Extended

/-- Example extended column: nullable `text`, no grants. -/
def extTextCol : Extended.ColumnInfo :=
  { type := "text", maxLength := none, isNullable := true
    defaultValue := none, isPrimaryKey := false, permissions := [] }

/-- Example extended column: nullable `varchar`, no grants. -/
def extVarcharCol : Extended.ColumnInfo :=
  { type := "varchar", maxLength := none, isNullable := true
    defaultValue := none, isPrimaryKey := false, permissions := [] }

/-- Example extended diff: table `t` has column `c` changing type from `text`
to `varchar`. -/
def extDiffChanged : Extended.SchemaDiff :=
  { tablesAdded := [], tablesRemoved := []
    tablesDiff := [("t",
      { columnsAdded := [], columnsRemoved := []
        columnsDiff := [("c", { from_ := extTextCol, to_ := extVarcharCol })]
        foreignKeys := none, rlsPolicies := none })] }

/-- Example extended full target schema matching `extDiffChanged`. -/
def extFullSchema : Extended.DatabaseSchema :=
  [("t", { columns := [("c", extVarcharCol)], foreignKeys := [], rlsPolicies := [] })]

/-! ### Generic lemmas about the JS-object model -/

/-- Membership of a key follows from a successful lookup. -/
theorem mem_keysOf_of_jsGet {α : Type _} {l : List (String × α)} {k : String} {v : α}
    (h : jsGet l k = some v) : k ∈ keysOf l := by
  induction l with
  | nil => simp [jsGet] at h
  | cons p t ih =>
    by_cases hpk : p.1 == k
    · exact show k ∈ p.1 :: keysOf t by simp [eq_of_beq hpk]
    · rw [jsGet, List.find?_cons_of_neg _ (by simpa using hpk)] at h
      simp only [keysOf, List.map_cons, List.mem_cons]
      exact Or.inr (ih h)

/-- A key appearing in `Object.keys` has a successful lookup. -/
theorem jsGet_isSome_of_mem_keysOf {α : Type _} {l : List (String × α)} {k : String}
    (h : k ∈ keysOf l) : (jsGet l k).isSome = true := by
  induction l with
  | nil => simp [keysOf] at h
  | cons p t ih =>
    by_cases hpk : p.1 == k
    · rw [jsGet, List.find?_cons_of_pos _ (by simpa using hpk)]
      rfl
    · rw [jsGet, List.find?_cons_of_neg _ (by simpa using hpk)]
      rcases (by simpa [keysOf] using h : k = p.1 ∨ k ∈ keysOf t) with h1 | h1
      · have hb : (p.1 == k) = true := by rw [h1]; exact beq_self_eq_true p.1
        exact absurd hb (by simpa using hpk)
      · exact ih h1

/-- The `in` test agrees with lookup success. -/
theorem hasKey_eq_isSome {α : Type _} (l : List (String × α)) (k : String) :
    hasKey l k = (jsGet l k).isSome := by
  simp only [hasKey, jsGet, Option.isSome_map']
  rw [Bool.eq_iff_iff]
  simp [List.any_eq_true, List.find?_isSome]

/-- Looking up a key right after assigning it yields the assigned value
(existing-key branch of `jsSet`). -/
theorem jsGet_map_set {α : Type _} (l : List (String × α)) (k : String) (v : α)
    (h : hasKey l k = true) :
    jsGet (l.map (fun p => if p.1 == k then (p.1, v) else p)) k = some v := by
  induction l with
  | nil => simp [hasKey] at h
  | cons p t ih =>
    by_cases hpk : p.1 == k
    · rw [List.map_cons, if_pos hpk, jsGet, List.find?_cons_of_pos _ (by simpa using hpk)]
      rfl
    · rw [List.map_cons, if_neg hpk, jsGet, List.find?_cons_of_neg _ (by simpa using hpk)]
      have h' : hasKey t k = true := by
        simpa [hasKey, hpk] using h
      exact ih h'

/-- Looking up a key right after appending it yields the appended value
(fresh-key branch of `jsSet`). -/
theorem jsGet_append_fresh {α : Type _} (l : List (String × α)) (k : String) (v : α)
    (h : hasKey l k = false) :
    jsGet (l ++ [(k, v)]) k = some v := by
  induction l with
  | nil => simp [jsGet]
  | cons p t ih =>
    have hpk : (p.1 == k) = false := by
      by_contra hc
      simp only [hasKey, List.any_cons, Bool.or_eq_false_iff] at h
      exact absurd h.1 hc
    rw [List.cons_append, jsGet, List.find?_cons_of_neg _ (by simp [hpk])]
    exact ih (by simpa [hasKey, hpk] using h)

/-- Looking up a key after `l[k] = v` yields `v`. -/
theorem jsGet_jsSet {α : Type _} (l : List (String × α)) (k : String) (v : α) :
    jsGet (jsSet l k v) k = some v := by
  unfold jsSet
  by_cases h : hasKey l k
  · rw [if_pos h]
    exact jsGet_map_set l k v h
  · rw [if_neg h]
    exact jsGet_append_fresh l k v (by simpa using h)

/-- Looking up a key after `delete l[k]` fails. -/
theorem jsGet_jsDelete {α : Type _} (l : List (String × α)) (k : String) :
    jsGet (jsDelete l k) k = none := by
  induction l with
  | nil => rfl
  | cons p t ih =>
    by_cases hpk : p.1 == k
    · simpa [jsDelete, List.filter_cons, hpk] using ih
    · have hpk' : (p.1 == k) = false := by simpa using hpk
      simp only [jsDelete, List.filter_cons, hpk']
      rw [show (!false) = true from rfl, if_pos rfl, jsGet,
        List.find?_cons_of_neg _ (by simp [hpk'])]
      simp only [jsDelete] at ih
      exact ih

/-! ### Lemmas about string concatenation -/

/-- A JS loop appending `f x` for each `x` to an accumulator computes the
initial value followed by the concatenation of the pieces. -/
theorem foldl_append_eq {α : Type _} (f : α → String) (l : List α) (init : String) :
    l.foldl (fun acc x => acc ++ f x) init = init ++ strConcat (l.map f) := by
  induction l generalizing init with
  | nil => simp [strConcat, String.append_empty]
  | cons x t ih =>
    simp only [List.foldl_cons, List.map_cons, strConcat, ih, String.append_assoc]

/-! ### Lemmas about the substring test -/

/-- Every string contains the empty pattern. -/
theorem charsContain_nil (s : List Char) : charsContain s [] = true := by
  cases s <;> rfl

/-- A pattern occurs at the start of its own extension. -/
theorem charsStartWith_append_self (pat rest : List Char) :
    charsStartWith (pat ++ rest) pat = true := by
  induction pat with
  | nil => cases rest <;> rfl
  | cons c cs ih => simp [charsStartWith, ih]

/-- A leading occurrence survives extending the string on the right. -/
theorem charsStartWith_extend {s pat : List Char} (t : List Char)
    (h : charsStartWith s pat = true) : charsStartWith (s ++ t) pat = true := by
  induction pat generalizing s with
  | nil => cases s ++ t <;> rfl
  | cons c cs ih =>
    cases s with
    | nil => simp [charsStartWith] at h
    | cons d ds =>
      simp only [charsStartWith, Bool.and_eq_true] at h
      simp [charsStartWith, h.1, ih h.2]

/-- An occurrence at the start is an occurrence. -/
theorem charsContain_of_startWith {s pat : List Char}
    (h : charsStartWith s pat = true) : charsContain s pat = true := by
  cases s with
  | nil =>
    cases pat with
    | nil => rfl
    | cons c cs => simp [charsStartWith] at h
  | cons c cs => simp [charsContain, h]

/-- An occurrence in the right part survives prepending. -/
theorem charsContain_append_right (a : List Char) {b pat : List Char}
    (h : charsContain b pat = true) : charsContain (a ++ b) pat = true := by
  induction a with
  | nil => simpa using h
  | cons c cs ih => simp [charsContain, ih]

/-- An occurrence in the left part survives appending. -/
theorem charsContain_append_left {a : List Char} (b : List Char) {pat : List Char}
    (h : charsContain a pat = true) : charsContain (a ++ b) pat = true := by
  induction a with
  | nil =>
    simp only [charsContain, List.isEmpty_iff] at h
    subst h
    simpa using charsContain_nil b
  | cons c cs ih =>
    simp only [charsContain, Bool.or_eq_true] at h
    rcases h with h | h
    · exact charsContain_of_startWith (by simpa using charsStartWith_extend b h)
    · simp [charsContain, ih h]

/-- `includes` is preserved by prepending text. -/
theorem jsIncludes_append_right (a : String) {b sub : String}
    (h : jsIncludes b sub = true) : jsIncludes (a ++ b) sub = true := by
  unfold jsIncludes at *
  rw [String.data_append]
  exact charsContain_append_right a.data h

/-- `includes` is preserved by appending text. -/
theorem jsIncludes_append_left {a : String} (b : String) {sub : String}
    (h : jsIncludes a sub = true) : jsIncludes (a ++ b) sub = true := by
  unfold jsIncludes at *
  rw [String.data_append]
  exact charsContain_append_left b.data h

/-- A string starting with `sub` includes `sub`. -/
theorem jsIncludes_self_append (sub rest : String) :
    jsIncludes (sub ++ rest) sub = true := by
  unfold jsIncludes
  rw [String.data_append]
  exact charsContain_of_startWith (charsStartWith_append_self sub.data rest.data)

/-- A concatenation includes whatever one of its pieces includes. -/
theorem jsIncludes_strConcat {α : Type _} (f : α → String) {x : α} {l : List α}
    (hmem : x ∈ l) {sub : String} (hx : jsIncludes (f x) sub = true) :
    jsIncludes (strConcat (l.map f)) sub = true := by
  induction l with
  | nil => simp at hmem
  | cons y t ih =>
    rcases List.mem_cons.mp hmem with h | h
    · subst h
      exact jsIncludes_append_left _ hx
    · exact jsIncludes_append_right _ (ih h)

/-! ### Decomposition of the simple-variant synthesizer into ordered sections -/

/-- The accumulating added-column loop equals its section, appended. -/
theorem addColumnsLoop_eq (psql table : String) (td : Simple.TableDiff)
    (cols : List String) :
    Simple.addColumnsLoop psql table td cols
      = (Simple.addColumnsSection table td cols).map (fun s => psql ++ s) := by
  induction cols generalizing psql with
  | nil => simp [Simple.addColumnsLoop, Simple.addColumnsSection, String.append_empty]
  | cons c rest ih =>
    simp only [Simple.addColumnsLoop, Simple.addColumnsSection]
    cases h1 : jsGet td.columnsDiff c with
    | none => simp
    | some cd =>
      dsimp only
      rw [ih]
      cases h2 : Simple.addColumnsSection table td rest with
      | none => simp
      | some s => simp [String.append_assoc]

/-- The accumulating per-table loop equals the concatenated table sections. -/
theorem alterTablesLoop_eq (psql : String) (l : List (String × Simple.TableDiff)) :
    Simple.alterTablesLoop psql l
      = (Simple.alterSections l).map (fun s => psql ++ s) := by
  induction l generalizing psql with
  | nil => simp [Simple.alterTablesLoop, Simple.alterSections, String.append_empty]
  | cons p rest ih =>
    obtain ⟨table, td⟩ := p
    simp only [Simple.alterTablesLoop, Simple.alterSections, Simple.tableAlterSection]
    rw [addColumnsLoop_eq]
    cases h1 : Simple.addColumnsSection table td td.columnsAdded with
    | none => simp
    | some a =>
      simp only [Option.map_some']
      rw [foldl_append_eq, foldl_append_eq, foldl_append_eq, foldl_append_eq, ih]
      cases h2 : Simple.alterSections rest with
      | none => simp
      | some b =>
        simp only [Option.map_some']
        rw [Option.some_inj]
        simp only [Simple.modifySection, Simple.dropColumnsSection, Simple.addFkSection,
          Simple.dropFkSection, String.append_assoc]

/-- CLAIM C5 — statement ordering of the synthesized script: whenever the
simple-variant `generatePsql` produces a script, that script is exactly the
`DROP TABLE ... CASCADE` statements for all removed tables, then the
`CREATE TABLE` statements for all added tables, then, for each changed table in
order, its added-column statements, its per-column type/nullability/default
change statements, its dropped-column statements, its added-foreign-key
statements, and its dropped-foreign-key statements — in that order. -/
theorem generatePsql_emits_sections_in_order (d : Simple.SchemaDiff) :
    Simple.generatePsql d
      = (Simple.alterSections d.tablesDiff).map
          (fun a => Simple.dropSection d ++ Simple.createSection d ++ a) := by
  unfold Simple.generatePsql
  dsimp only
  rw [foldl_append_eq, foldl_append_eq, alterTablesLoop_eq]
  cases h : Simple.alterSections d.tablesDiff with
  | none => simp
  | some a =>
    simp only [Option.map_some']
    rw [Option.some_inj]
    simp [Simple.dropSection, Simple.createSection, String.empty_append, String.append_assoc]

/-! ### Reflexivity of the comparators -/

/-- Filtering the keys of a map for keys the map lacks yields nothing. -/
theorem filter_not_hasKey_self {α : Type _} (m : List (String × α)) :
    (keysOf m).filter (fun t => !(hasKey m t)) = [] := by
  refine List.filter_eq_nil_iff.mpr (fun t ht => ?_)
  rw [hasKey_eq_isSome, jsGet_isSome_of_mem_keysOf ht]
  simp

/-- Variant with the `Option.isNone` truthiness test of the extended code. -/
theorem filter_isNone_self {α : Type _} (m : List (String × α)) :
    (keysOf m).filter (fun t => (jsGet m t).isNone) = [] := by
  refine List.filter_eq_nil_iff.mpr (fun t ht => ?_)
  obtain ⟨v, hv⟩ := Option.isSome_iff_exists.mp (jsGet_isSome_of_mem_keysOf ht)
  simp [hv]

/-- Filtering a list for elements the list does not structurally contain
yields nothing. -/
theorem filter_not_any_self {α : Type _} [DecidableEq α] (l : List α) :
    l.filter (fun x => !(l.any (fun y => y == x))) = [] := by
  refine List.filter_eq_nil_iff.mpr (fun x hx => ?_)
  have hany : l.any (fun y => y == x) = true := List.any_eq_true.mpr ⟨x, hx, beq_self_eq_true x⟩
  simp [hany]

/-- Comparing a table of the simple variant with itself produces an empty
per-table diff. -/
theorem compareTables_self (t : Simple.TableInfo) :
    Simple.compareTables t t
      = { columnsAdded := [], columnsRemoved := [], columnsDiff := []
          foreignKeysAdded := [], foreignKeysRemoved := [] } := by
  simp only [Simple.compareTables, Simple.TableDiff.mk.injEq]
  refine ⟨filter_not_hasKey_self _, filter_not_hasKey_self _, ?_,
    filter_not_any_self _, filter_not_any_self _⟩
  refine List.filterMap_eq_nil_iff.mpr (fun c hc => ?_)
  obtain ⟨v, hv⟩ := Option.isSome_iff_exists.mp (jsGet_isSome_of_mem_keysOf hc)
  simp [hv]

/-- Comparing a table of the extended variant with itself produces an empty
per-table diff. -/
theorem compareTablesExt_self (t : Extended.TableInfo) :
    Extended.compareTables t t
      = { columnsAdded := [], columnsRemoved := [], columnsDiff := []
          foreignKeys := none, rlsPolicies := none } := by
  simp only [Extended.compareTables, Extended.TableDiff.mk.injEq]
  refine ⟨filter_isNone_self _, filter_isNone_self _, ?_, by simp, by simp⟩
  refine List.filterMap_eq_nil_iff.mpr (fun c hc => ?_)
  obtain ⟨v, hv⟩ := Option.isSome_iff_exists.mp (jsGet_isSome_of_mem_keysOf hc)
  simp [hv]

/-- CLAIM C3 — reflexivity of the comparator: for every schema `S`, comparing
`S` with itself yields the empty diff (`tablesAdded = []`,
`tablesRemoved = []`, `tablesDiff = {}`), in both the simple variant and the
extended (`dbUtils.ts`) variant of `compareSchemas`. -/
theorem compareSchemas_self_is_empty :
    (∀ S : Simple.DatabaseSchema,
      Simple.compareSchemas S S
        = { tablesAdded := [], tablesRemoved := [], tablesDiff := [] }) ∧
    (∀ S : Extended.DatabaseSchema,
      Extended.compareSchemas S S
        = { tablesAdded := [], tablesRemoved := [], tablesDiff := [] }) := by
  constructor
  · intro S
    simp only [Simple.compareSchemas, Simple.SchemaDiff.mk.injEq]
    refine ⟨filter_not_hasKey_self _, filter_not_hasKey_self _, ?_⟩
    refine List.filterMap_eq_nil_iff.mpr (fun table ht => ?_)
    obtain ⟨ti, hv⟩ := Option.isSome_iff_exists.mp (jsGet_isSome_of_mem_keysOf ht)
    simp [hv, compareTables_self, Simple.tableDiffNonEmpty]
  · intro S
    simp only [Extended.compareSchemas, Extended.SchemaDiff.mk.injEq]
    refine ⟨filter_isNone_self _, filter_isNone_self _, ?_⟩
    refine List.filterMap_eq_nil_iff.mpr (fun table ht => ?_)
    obtain ⟨ti, hv⟩ := Option.isSome_iff_exists.mp (jsGet_isSome_of_mem_keysOf ht)
    simp [hv, compareTablesExt_self, Extended.tableDiffNonEmpty]

/-! ### Failure of synthesizer totality and of preview convergence -/

/-- CLAIM C2 — refutation of DDL-synthesis totality: on the well-formed diff
produced by `compareSchemas` for the simplest add-one-column migration
(`posts(id)` → `posts(id, title)`), the simple-variant `generatePsql` crashes
instead of returning a DDL string. The diff records `title` in `columnsAdded`
only, but the ADD COLUMN branch reads `tableDiff.columnsDiff[column].to`, a
property access on `undefined` (a thrown `TypeError`, modelled as `none`). -/
theorem generatePsql_crashes_on_added_column :
    Simple.compareSchemas postsSrc postsTgt
      = { tablesAdded := [], tablesRemoved := []
          tablesDiff := [("posts",
            { columnsAdded := ["title"], columnsRemoved := [], columnsDiff := []
              foreignKeysAdded := [], foreignKeysRemoved := [] })] } ∧
    Simple.generatePsql (Simple.compareSchemas postsSrc postsTgt) = none := by
  exact ⟨by decide, by decide⟩

/-- CLAIM C1 — refutation of the convergence property at the simplest
add-one-column case `users(id)` → `users(id, email)`: (1) the seed script for
the source schema is a bare empty-shell `CREATE TABLE "users" ();`, so the
seeded sandbox introspects as a `users` table with no columns; (2) synthesizing
the migration from `compare(source, target)` crashes (`none`), so
`previewChanges` throws instead of reporting any diff; (3) even the sandbox
state after the shell-only seeding compared against the target is a non-empty
diff, so re-introspection cannot yield the empty diff the claim requires. -/
theorem preview_convergence_fails :
    Simple.generatePsql
        { tablesAdded := keysOf usersSrc, tablesRemoved := [], tablesDiff := [] }
      = some "CREATE TABLE \"users\" ();\n" ∧
    Simple.generatePsql (Simple.compareSchemas usersSrc usersTgt) = none ∧
    Simple.compareSchemas usersShell usersTgt ≠ Simple.emptyDiff := by
  exact ⟨by decide, by decide, by decide⟩

/-! ### Output order of the comparator -/

/-- CLAIM C9 — counterexample to sorted output: a two-table schema whose keys
were inserted in the order `b`, `a` makes `compareSchemas` report
`tablesAdded = ["b", "a"]`, which is not in lexical order; inserting the same
tables in the order `a`, `b` yields `["a", "b"]` instead, so the output also
depends on the insertion order of the input map. -/
theorem compareSchemas_output_not_sorted :
    (Simple.compareSchemas ([] : Simple.DatabaseSchema) twoTablesBA).tablesAdded = ["b", "a"] ∧
    sortedStrings
      (Simple.compareSchemas ([] : Simple.DatabaseSchema) twoTablesBA).tablesAdded = false ∧
    (Simple.compareSchemas ([] : Simple.DatabaseSchema) twoTablesAB).tablesAdded = ["a", "b"] :=
  ⟨by decide, by decide, by decide⟩

/-- CLAIM C9 (amended) — deterministic output order of the comparator: the
table-name lists are emitted in the iteration (insertion) order of the input
maps — `tablesAdded` is an in-order sublist of the target's keys,
`tablesRemoved` of the source's keys — and every `tablesDiff` entry's
`columnsAdded` / `columnsRemoved` are in-order sublists of the corresponding
table's column keys; the output is a pure function of the ordered inputs, but
it is not sorted. -/
theorem compareSchemas_output_order (s1 s2 : Simple.DatabaseSchema) :
    List.Sublist (Simple.compareSchemas s1 s2).tablesAdded (keysOf s2) ∧
    List.Sublist (Simple.compareSchemas s1 s2).tablesRemoved (keysOf s1) ∧
    ∀ t td, (t, td) ∈ (Simple.compareSchemas s1 s2).tablesDiff →
      ∃ t1 t2, jsGet s1 t = some t1 ∧ jsGet s2 t = some t2 ∧
        List.Sublist td.columnsAdded (keysOf t2.columns) ∧
        List.Sublist td.columnsRemoved (keysOf t1.columns) := by
  refine ⟨List.filter_sublist _, List.filter_sublist _, ?_⟩
  intro t td h
  simp only [Simple.compareSchemas] at h
  obtain ⟨a, _, hf⟩ := List.mem_filterMap.mp h
  cases h2 : jsGet s2 a with
  | none => rw [h2] at hf; simp at hf
  | some t2i =>
    cases h1 : jsGet s1 a with
    | none => rw [h2, h1] at hf; simp at hf
    | some t1i =>
      rw [h2, h1] at hf
      dsimp only at hf
      by_cases hne : Simple.tableDiffNonEmpty (Simple.compareTables t1i t2i) = true
      · rw [if_pos hne, Option.some_inj, Prod.mk.injEq] at hf
        obtain ⟨rfl, rfl⟩ := hf
        exact ⟨t1i, t2i, h1, h2,
          by simp only [Simple.compareTables]; exact List.filter_sublist _,
          by simp only [Simple.compareTables]; exact List.filter_sublist _⟩
      · rw [if_neg hne] at hf
        simp at hf

/-- Witness for the amended C9 statement at the concrete add-one-column pair:
the diff entry for `users` has its column lists in the target/source key
order. -/
theorem compareSchemas_output_order_witness :
    List.Sublist (Simple.compareSchemas usersSrc usersTgt).tablesAdded (keysOf usersTgt) ∧
    (∃ t1 t2, jsGet usersSrc "users" = some t1 ∧ jsGet usersTgt "users" = some t2 ∧
      List.Sublist ["email"] (keysOf t2.columns) ∧
      List.Sublist ([] : List String) (keysOf t1.columns)) :=
  ⟨(compareSchemas_output_order usersSrc usersTgt).1,
    (compareSchemas_output_order usersSrc usersTgt).2.2 "users"
      { columnsAdded := ["email"], columnsRemoved := [], columnsDiff := []
        foreignKeysAdded := [], foreignKeysRemoved := [] } (by decide)⟩

/-! ### The deny-list validator -/

/-- CLAIM C4 — deny-list validation: a script mentioning `DROP DATABASE` or
`DROP SCHEMA` (case-insensitively) is invalid with the corresponding error
message recorded; a script mentioning `TRUNCATE` is likewise invalid with its
message recorded; and for every script `isValid` holds iff `errors` is empty.
Quantified over every behavior `parse` of the external statement parser. -/
theorem verifyPsql_deny_rules (parse : String → Option String) (psql : String) :
    ((jsIncludes (toLowerStr psql) "drop database" = true ∨
      jsIncludes (toLowerStr psql) "drop schema" = true) →
      (Simple.verifyPsql parse psql).isValid = false ∧
      Simple.dropDenyMsg ∈ (Simple.verifyPsql parse psql).errors) ∧
    (jsIncludes (toLowerStr psql) "truncate" = true →
      (Simple.verifyPsql parse psql).isValid = false ∧
      Simple.truncateDenyMsg ∈ (Simple.verifyPsql parse psql).errors) ∧
    ((Simple.verifyPsql parse psql).isValid = true ↔
      (Simple.verifyPsql parse psql).errors = []) := by
  obtain ⟨pe, herr⟩ : ∃ pe, (Simple.verifyPsql parse psql).errors
      = pe ++ (if jsIncludes (toLowerStr psql) "drop database"
                  || jsIncludes (toLowerStr psql) "drop schema" then
                [Simple.dropDenyMsg] else [])
          ++ (if jsIncludes (toLowerStr psql) "truncate" then
                [Simple.truncateDenyMsg] else []) := ⟨_, rfl⟩
  have hval : (Simple.verifyPsql parse psql).isValid
      = ((Simple.verifyPsql parse psql).errors.length == 0) := rfl
  refine ⟨?_, ?_, ?_⟩
  · intro h
    have hcond : (jsIncludes (toLowerStr psql) "drop database"
        || jsIncludes (toLowerStr psql) "drop schema") = true := by
      rcases h with h | h <;> simp [h]
    constructor
    · rw [hval, herr, hcond]
      simp [beq_eq_false_iff_ne, List.length_append]
    · rw [herr, hcond]
      simp
  · intro h
    constructor
    · rw [hval, herr, h]
      simp [beq_eq_false_iff_ne, List.length_append]
    · rw [herr, h]
      simp
  · rw [hval]
    simp [List.length_eq_zero]

/-- Witness for C4 at a concrete denied script (with an all-accepting parser):
`DROP SCHEMA public CASCADE;` is rejected with the deny message recorded. -/
theorem verifyPsql_deny_rules_witness :
    (Simple.verifyPsql (fun _ => none) "DROP SCHEMA public CASCADE;").isValid = false ∧
    Simple.dropDenyMsg ∈ (Simple.verifyPsql (fun _ => none) "DROP SCHEMA public CASCADE;").errors :=
  (verifyPsql_deny_rules (fun _ => none) "DROP SCHEMA public CASCADE;").1 (Or.inr (by decide))

/-- CLAIM C10 — the deny-list scan over-approximates: any script whose
lowercased text contains `truncate`, `drop database` or `drop schema` anywhere
is marked invalid, regardless of what the statement parser says — the scan is
a raw substring test on the whole script, not a per-statement analysis. -/
theorem verifyPsql_scan_overapproximates (parse : String → Option String) (psql : String)
    (h : jsIncludes (toLowerStr psql) "truncate" = true ∨
      jsIncludes (toLowerStr psql) "drop database" = true ∨
      jsIncludes (toLowerStr psql) "drop schema" = true) :
    (Simple.verifyPsql parse psql).isValid = false := by
  obtain ⟨pe, herr⟩ : ∃ pe, (Simple.verifyPsql parse psql).errors
      = pe ++ (if jsIncludes (toLowerStr psql) "drop database"
                  || jsIncludes (toLowerStr psql) "drop schema" then
                [Simple.dropDenyMsg] else [])
          ++ (if jsIncludes (toLowerStr psql) "truncate" then
                [Simple.truncateDenyMsg] else []) := ⟨_, rfl⟩
  have hval : (Simple.verifyPsql parse psql).isValid
      = ((Simple.verifyPsql parse psql).errors.length == 0) := rfl
  rcases h with h | h | h
  · rw [hval, herr, h]
    simp [beq_eq_false_iff_ne, List.length_append]
  all_goals
    rw [hval, herr, show (jsIncludes (toLowerStr psql) "drop database"
        || jsIncludes (toLowerStr psql) "drop schema") = true by simp [h]]
    simp [beq_eq_false_iff_ne, List.length_append]

/-- Witness for C10: the script `ALTER TABLE t ADD COLUMN truncated_at
timestamp;` contains no `TRUNCATE` statement and every statement parses (the
oracle accepts everything), yet the scan sees the substring `truncate` inside
the identifier `truncated_at` and the validator rejects the script. -/
theorem verifyPsql_scan_overapproximates_witness :
    jsIncludes (toLowerStr "ALTER TABLE t ADD COLUMN truncated_at timestamp;")
      "truncate" = true ∧
    (Simple.verifyPsql (fun _ => none)
      "ALTER TABLE t ADD COLUMN truncated_at timestamp;").isValid = false :=
  ⟨by decide, verifyPsql_scan_overapproximates (fun _ => none)
    "ALTER TABLE t ADD COLUMN truncated_at timestamp;" (Or.inl (by decide))⟩

/-! ### Sandbox registry lifecycle -/

/-- After a lease the user key is always registered. -/
theorem leaseSandbox_registered {D : Type} (reg : Simple.Registry D) (u : String)
    (now : Nat) (uuid : String) (db : D) :
    (jsGet (Simple.leaseSandbox reg u now uuid db).2 u).isSome = true := by
  unfold Simple.leaseSandbox
  cases hg : jsGet reg u <;> simp [jsGet_jsSet]

/-- A lease that finds an existing entry refreshes its timestamp and returns
its engine instance. -/
theorem leaseSandbox_found {D : Type} (reg : Simple.Registry D) (u : String)
    (now : Nat) (uuid : String) (db : D) (pd : Simple.PreviewDatabase D)
    (h : jsGet reg u = some pd) :
    Simple.leaseSandbox reg u now uuid db
      = (pd.db, jsSet reg u { pd with lastAccessed := now }) := by
  unfold Simple.leaseSandbox
  rw [h]

/-- CLAIM C8 — lease stability: leasing twice in sequence for the same user
key, with no intervening release or reap, finds an entry both times with the
same sandbox id and the same engine instance (the second lease also returns
exactly the first entry's engine), and the recorded `lastAccessed` moves from
the first clock reading to the second, hence strictly increases whenever the
injected clock does. -/
theorem leaseSandbox_stable {D : Type} (reg : Simple.Registry D) (u : String)
    (t1 t2 : Nat) (uuid1 uuid2 : String) (db1 db2 : D) (h : t1 < t2) :
    ∃ pd1 pd2,
      jsGet (Simple.leaseSandbox reg u t1 uuid1 db1).2 u = some pd1 ∧
      jsGet (Simple.leaseSandbox
        (Simple.leaseSandbox reg u t1 uuid1 db1).2 u t2 uuid2 db2).2 u = some pd2 ∧
      (Simple.leaseSandbox
        (Simple.leaseSandbox reg u t1 uuid1 db1).2 u t2 uuid2 db2).1 = pd1.db ∧
      pd2.id = pd1.id ∧ pd2.db = pd1.db ∧
      pd1.lastAccessed = t1 ∧ pd2.lastAccessed = t2 ∧
      pd1.lastAccessed < pd2.lastAccessed := by
  obtain ⟨pd1, hpd1, hla1⟩ :
      ∃ pd1, jsGet (Simple.leaseSandbox reg u t1 uuid1 db1).2 u = some pd1 ∧
        pd1.lastAccessed = t1 := by
    unfold Simple.leaseSandbox
    cases hg : jsGet reg u with
    | some pd => exact ⟨{ pd with lastAccessed := t1 }, jsGet_jsSet _ _ _, rfl⟩
    | none => exact ⟨_, jsGet_jsSet _ _ _, rfl⟩
  have h2 := leaseSandbox_found (Simple.leaseSandbox reg u t1 uuid1 db1).2 u t2 uuid2 db2 pd1 hpd1
  refine ⟨pd1, { pd1 with lastAccessed := t2 }, hpd1, ?_, ?_, rfl, rfl, hla1, rfl, ?_⟩
  · rw [h2]
    exact jsGet_jsSet _ _ _
  · rw [h2]
  · rw [hla1]
    exact h

/-- Witness for C8 on a concrete run: an empty registry, user `u`, clock
readings 0 then 1, engine instances 5 and 6 (only the first is kept). -/
theorem leaseSandbox_stable_witness :
    ∃ pd1 pd2,
      jsGet (Simple.leaseSandbox ([] : Simple.Registry Nat) "u" 0 "x" 5).2 "u" = some pd1 ∧
      jsGet (Simple.leaseSandbox
        (Simple.leaseSandbox ([] : Simple.Registry Nat) "u" 0 "x" 5).2 "u" 1 "y" 6).2 "u"
        = some pd2 ∧
      (Simple.leaseSandbox
        (Simple.leaseSandbox ([] : Simple.Registry Nat) "u" 0 "x" 5).2 "u" 1 "y" 6).1
        = pd1.db ∧
      pd2.id = pd1.id ∧ pd2.db = pd1.db ∧
      pd1.lastAccessed = 0 ∧ pd2.lastAccessed = 1 ∧
      pd1.lastAccessed < pd2.lastAccessed :=
  leaseSandbox_stable [] "u" 0 1 "x" "y" 5 6 (by decide)

/-- CLAIM C7 — counterexample: a preview that fails validation does not
release the sandbox. Starting from an empty registry, a request whose
candidate script is the denied `DROP SCHEMA public CASCADE;` returns the
validation failure as a normal result, and the just-created sandbox for user
`u` is still registered afterwards — the claim's "registry holds no sandbox
for that user key after any failed preview" is false on this run. -/
theorem previewChanges_keeps_sandbox_on_invalid_script :
    (Simple.previewChanges ([] : Simple.Registry Unit) "u" 0 "1" () (fun _ => none)
        "DROP SCHEMA public CASCADE;" (Except.ok []) (Except.ok []) (Except.ok [])).1
      = [("u", { id := "preview-u-1", db := (), lastAccessed := 0 })] ∧
    (Simple.previewChanges ([] : Simple.Registry Unit) "u" 0 "1" () (fun _ => none)
        "DROP SCHEMA public CASCADE;" (Except.ok []) (Except.ok []) (Except.ok [])).2
      = Except.ok { diff := Simple.emptyDiff
                    verificationResult := { isValid := false, errors := [Simple.dropDenyMsg] } } :=
  ⟨rfl, rfl⟩

/-- CLAIM C7 (amended) — release on thrown errors only: whenever
`previewChanges` surfaces a thrown error (a failing `getSchema` on the source,
the target, or the sandbox), the user's registry entry is removed before the
error propagates; but when the candidate script fails validation the function
returns the validation errors as a normal result and the leased sandbox stays
registered (it is left for the periodic reaper). -/
theorem previewChanges_releases_on_error {D : Type} (reg : Simple.Registry D)
    (userId : String) (now : Nat) (uuid : String) (freshDb : D)
    (parse : String → Option String) (psql : String)
    (sourceRes targetRes previewRes : Except String Simple.DatabaseSchema) :
    (∀ e, (Simple.previewChanges reg userId now uuid freshDb parse psql
        sourceRes targetRes previewRes).2 = Except.error e →
      jsGet (Simple.previewChanges reg userId now uuid freshDb parse psql
        sourceRes targetRes previewRes).1 userId = none) ∧
    ((Simple.verifyPsql parse psql).isValid = false →
      (Simple.previewChanges reg userId now uuid freshDb parse psql
        sourceRes targetRes previewRes).2
        = Except.ok { diff := Simple.emptyDiff
                      verificationResult := Simple.verifyPsql parse psql } ∧
      (jsGet (Simple.previewChanges reg userId now uuid freshDb parse psql
        sourceRes targetRes previewRes).1 userId).isSome = true) := by
  unfold Simple.previewChanges
  dsimp only
  cases hv : (Simple.verifyPsql parse psql).isValid with
  | true =>
    rw [if_pos rfl]
    constructor
    · intro e he
      cases sourceRes with
      | error e1 => exact jsGet_jsDelete _ _
      | ok s1 =>
        cases targetRes with
        | error e2 => exact jsGet_jsDelete _ _
        | ok s2 =>
          cases previewRes with
          | error e3 => exact jsGet_jsDelete _ _
          | ok s3 => simp at he
    · intro hcontra
      exact absurd hcontra (by simp)
  | false =>
    rw [if_neg (by simp)]
    refine ⟨fun e he => absurd he (by simp), fun _ => ⟨rfl, leaseSandbox_registered _ _ _ _ _⟩⟩

/-- Witness for the amended C7 statement: with a valid (empty) script and a
source introspection that throws `boom`, the run surfaces the error and the
registry no longer holds user `u`; with the denied script it returns the
validation failure and keeps the sandbox registered. -/
theorem previewChanges_releases_on_error_witness :
    jsGet (Simple.previewChanges ([] : Simple.Registry Unit) "u" 0 "1" () (fun _ => none)
      "" (Except.error "boom") (Except.ok []) (Except.ok [])).1 "u" = none ∧
    (jsGet (Simple.previewChanges ([] : Simple.Registry Unit) "u" 0 "1" () (fun _ => none)
      "DROP SCHEMA public CASCADE;" (Except.ok []) (Except.ok []) (Except.ok [])).1 "u").isSome
      = true :=
  ⟨(previewChanges_releases_on_error [] "u" 0 "1" () (fun _ => none) ""
      (Except.error "boom") (Except.ok []) (Except.ok [])).1 "boom" rfl,
    ((previewChanges_releases_on_error [] "u" 0 "1" () (fun _ => none)
      "DROP SCHEMA public CASCADE;" (Except.ok []) (Except.ok []) (Except.ok [])).2
      (by decide)).2⟩

/-! ### The explicit USING cast of the extended synthesizer -/

/-- Whatever one table of the extended synthesizer's loop contributes is a
substring of the loop's whole output. -/
theorem tablesText_mem {d : Extended.SchemaDiff} {fs : Extended.DatabaseSchema}
    {l : List String} {r : String} (hl : Extended.tablesText d fs l = some r)
    {t : String} (ht : t ∈ l) :
    ∃ a, Extended.tableText d fs t = some a ∧
      ∀ sub, jsIncludes a sub = true → jsIncludes r sub = true := by
  induction l generalizing r with
  | nil => simp at ht
  | cons x xs ih =>
    unfold Extended.tablesText at hl
    cases hx : Extended.tableText d fs x with
    | none => rw [hx] at hl; simp at hl
    | some a =>
      cases hxs : Extended.tablesText d fs xs with
      | none => rw [hx, hxs] at hl; simp at hl
      | some b =>
        rw [hx, hxs] at hl
        have hr : a ++ b = r := Option.some_inj.mp hl
        rcases List.mem_cons.mp ht with rfl | hmem
        · exact ⟨a, hx, fun sub hs => by rw [← hr]; exact jsIncludes_append_left _ hs⟩
        · obtain ⟨a', ha', htrans⟩ := ih hxs hmem
          exact ⟨a', ha', fun sub hs => by
            rw [← hr]; exact jsIncludes_append_right _ (htrans sub hs)⟩

/-- A changed column with a type or length difference emits its `USING`-cast
TYPE statement at the head of its fragment. -/
theorem modifyColumnText_includes_cast (table col : String) (cd : Extended.ColumnDiff)
    (hchg : cd.from_.type ≠ cd.to_.type ∨ cd.from_.maxLength ≠ cd.to_.maxLength) :
    jsIncludes (Extended.modifyColumnText table col cd)
      (Extended.typeChangeStmt table col cd.to_) = true := by
  have hcond : (cd.from_.type != cd.to_.type
      || cd.from_.maxLength != cd.to_.maxLength) = true := by
    rcases hchg with h | h <;> simp [bne_iff_ne, h]
  unfold Extended.modifyColumnText
  rw [hcond, if_pos rfl, String.append_assoc]
  exact jsIncludes_self_append _ _

/-- CLAIM C6 — explicit-cast rule of the extended synthesizer (`dbUtils.ts`):
whenever `generatePsql` produces a script, then for every changed (not newly
added) table and every recorded column change whose type or maxLength differ,
the script contains the full statement
`ALTER TABLE <t> ALTER COLUMN <c> TYPE <type>[(<len>)] USING <c>::<type>[(<len>)];`
— the TYPE change always carries the explicit `USING` cast. -/
theorem generatePsql_type_change_has_using_cast
    (d : Extended.SchemaDiff) (fs : Extended.DatabaseSchema) (s : String)
    (table : String) (td : Extended.TableDiff) (col : String) (cd : Extended.ColumnDiff)
    (hgen : Extended.generatePsql d fs = some s)
    (htd : jsGet d.tablesDiff table = some td)
    (hnew : d.tablesAdded.contains table = false)
    (hcd : (col, cd) ∈ td.columnsDiff)
    (hchg : cd.from_.type ≠ cd.to_.type ∨ cd.from_.maxLength ≠ cd.to_.maxLength) :
    jsIncludes s (Extended.typeChangeStmt table col cd.to_) = true := by
  unfold Extended.generatePsql at hgen
  dsimp only at hgen
  cases hall : Extended.tablesText d fs (d.tablesAdded ++ keysOf d.tablesDiff) with
  | none => rw [hall] at hgen; simp at hgen
  | some rest =>
    rw [hall] at hgen
    have hs : s = strConcat (d.tablesRemoved.map (fun table =>
        "DROP TABLE IF EXISTS " ++ table ++ " CASCADE;\n")) ++ rest :=
      (Option.some_inj.mp hgen).symm
    have hmem : table ∈ d.tablesAdded ++ keysOf d.tablesDiff :=
      List.mem_append_right _ (mem_keysOf_of_jsGet htd)
    obtain ⟨a, hta, htrans⟩ := tablesText_mem hall hmem
    have hina : jsIncludes a (Extended.typeChangeStmt table col cd.to_) = true := by
      unfold Extended.tableText at hta
      cases hfs : jsGet fs table with
      | none => rw [hfs] at hta; simp at hta
      | some ts =>
        rw [hfs] at hta
        dsimp only at hta
        rw [hnew, if_neg (by simp), htd] at hta
        dsimp only at hta
        cases hadd : Extended.addColumnsText ts table td.columnsAdded with
        | none => rw [hadd] at hta; simp at hta
        | some ap =>
          rw [hadd] at hta
          have ha : ap ++ Extended.dropColumnsText table td
              ++ Extended.modifyColumnsText table td
              ++ Extended.fkUpdateText table ts td
              ++ Extended.handleRLSPolicies table ts.rlsPolicies
              ++ Extended.handlePermissions table ts.columns = a :=
            Option.some_inj.mp hta
          have hx : jsIncludes ((fun q : String × Extended.ColumnDiff =>
              Extended.modifyColumnText table q.1 q.2) (col, cd))
              (Extended.typeChangeStmt table col cd.to_) = true :=
            modifyColumnText_includes_cast table col cd hchg
          have hmod : jsIncludes (Extended.modifyColumnsText table td)
              (Extended.typeChangeStmt table col cd.to_) = true := by
            have hres := jsIncludes_strConcat
              (fun q : String × Extended.ColumnDiff =>
                Extended.modifyColumnText table q.1 q.2) hcd hx
            unfold Extended.modifyColumnsText
            exact hres
          rw [← ha]
          exact jsIncludes_append_left _ (jsIncludes_append_left _
            (jsIncludes_append_left _ (jsIncludes_append_right _ hmod)))
    rw [hs]
    exact jsIncludes_append_right _ (htrans _ hina)

/-- Witness for C6 at the concrete changed column `t.c : text → varchar`: the
generated script contains the `TYPE varchar USING c::varchar` statement. -/
theorem generatePsql_type_change_has_using_cast_witness :
    jsIncludes ((Extended.generatePsql extDiffChanged extFullSchema).getD "")
      (Extended.typeChangeStmt "t" "c" extVarcharCol) = true :=
  generatePsql_type_change_has_using_cast extDiffChanged extFullSchema
    ((Extended.generatePsql extDiffChanged extFullSchema).getD "") "t"
    { columnsAdded := [], columnsRemoved := []
      columnsDiff := [("c", { from_ := extTextCol, to_ := extVarcharCol })]
      foreignKeys := none, rlsPolicies := none }
    "c" { from_ := extTextCol, to_ := extVarcharCol }
    rfl rfl rfl (by decide) (Or.inl (by decide))
